import Mathlib

/-!
Verification development for `metadata.go` (package `tag`).

`metadata.go` declares the tag-version enumeration with its name table, the
eleven sentinel errors and the four capability interfaces merged into
`Metadata`.  The first part of this file embeds those declarations; the second
part models, from the specification text, the codec behaviour that lives in
the format-specific files (syncsafe integers, track-number storage, the keyed
field store).
-/

namespace Tag

/-! ## Part 1: declarations of `metadata.go` -/

/-- Go strings, under a name that cannot be confused with `TagVersion.String`. -/
abbrev GoString := String

/-- `type TagVersion int`: a tag version is a plain Go integer. Go's `int` is a
64-bit subset of `Int`; nothing below depends on the width. -/
abbrev TagVersion := Int

def TagVersionUndefined : TagVersion := 0
def TagVersionID3v1 : TagVersion := 1
def TagVersionID3v22 : TagVersion := 2
def TagVersionID3v23 : TagVersion := 3
def TagVersionID3v24 : TagVersion := 4
def TagVersionMP4 : TagVersion := 5
def TagVersionFLAC : TagVersion := 6

/-- The seven constants of the `const ( ... )` block, in declaration order. -/
def declaredVersions : List TagVersion :=
  [TagVersionUndefined, TagVersionID3v1, TagVersionID3v22, TagVersionID3v23,
   TagVersionID3v24, TagVersionMP4, TagVersionFLAC]

/-- `var id3VersionMap = map[TagVersion]string{...}` as its list of entries. -/
def id3VersionMap : List (TagVersion × GoString) :=
  [(TagVersionUndefined, ""),
   (TagVersionID3v1, "id3v1"),
   (TagVersionID3v22, "id3v2.2"),
   (TagVersionID3v23, "id3v2.3"),
   (TagVersionID3v24, "id3v2.4"),
   (TagVersionMP4, "mp4"),
   (TagVersionFLAC, "flac")]

/-- Go's index expression `m[k]` on a `map[TagVersion]string`: the stored value,
or the zero value `""` of the element type when the key has no entry. -/
def mapIndex : List (TagVersion × GoString) → TagVersion → GoString
  | [], _ => ""
  | (k, s) :: rest, v => if k = v then s else mapIndex rest v

/-- `func (v TagVersion) String() string { return id3VersionMap[v] }`. -/
def TagVersion.String (v : TagVersion) : GoString :=
  mapIndex id3VersionMap v

/-- An error value made by `errors.New`: it carries its message. -/
structure GoError where
  msg : GoString
  deriving DecidableEq, Repr

/-- `errors.New(text)`. -/
def errorsNew (text : GoString) : GoError := ⟨text⟩

def ErrUnsupportedFormat : GoError := errorsNew "unsupported format"
def ErrIncorrectLength : GoError := errorsNew "tag incorrect length"
def ErrUnsupportedTag : GoError := errorsNew "unsupported tag"
def ErrTagNotFound : GoError := errorsNew "tag not found"
def ErrEmptyFile : GoError := errorsNew "empty file"
def ErrFileMarker : GoError := errorsNew "error file marker"
def ErrReadFile : GoError := errorsNew "error read file"
def ErrSeekFile : GoError := errorsNew "error seek file"
def ErrWriteFile : GoError := errorsNew "error write file"
def ErrIncorrectTag : GoError := errorsNew "incorrect tag"
def ErrNotFoundGenre : GoError := errorsNew "not found genre"

/-- The `var ( ... )` block of sentinel errors: each declared identifier with
its value, in declaration order. -/
def sentinelErrors : List (GoString × GoError) :=
  [("ErrUnsupportedFormat", ErrUnsupportedFormat),
   ("ErrIncorrectLength", ErrIncorrectLength),
   ("ErrUnsupportedTag", ErrUnsupportedTag),
   ("ErrTagNotFound", ErrTagNotFound),
   ("ErrEmptyFile", ErrEmptyFile),
   ("ErrFileMarker", ErrFileMarker),
   ("ErrReadFile", ErrReadFile),
   ("ErrSeekFile", ErrSeekFile),
   ("ErrWriteFile", ErrWriteFile),
   ("ErrIncorrectTag", ErrIncorrectTag),
   ("ErrNotFoundGenre", ErrNotFoundGenre)]

/-- The error kinds of the specification's taxonomy (section 7), in its order. -/
def errorKinds : List GoString :=
  ["UnsupportedFormat", "IncorrectLength", "UnsupportedTag", "TagNotFound",
   "EmptyFile", "FileMarker", "ReadFile", "SeekFile", "WriteFile",
   "IncorrectTag", "NotFoundGenre"]

/-- The Go types that occur in the method signatures of `metadata.go`. -/
inductive GoType where
  | string
  | int
  | bytes
  | stringSlice
  | error
  | tagVersion
  | timeTime
  | imageImage
  | ioWriteSeeker
  deriving DecidableEq, Repr

/-- One method of an interface: its name, parameter types and result types. -/
structure Method where
  name : GoString
  params : List GoType
  results : List GoType
  deriving DecidableEq, Repr

/-- `type GetMetadata interface { ... }`. -/
def GetMetadata : List Method :=
  [⟨"GetAllTagNames", [], [.stringSlice]⟩,
   ⟨"GetVersion", [], [.tagVersion]⟩,
   ⟨"GetFileData", [], [.bytes]⟩,
   ⟨"GetTitle", [], [.string, .error]⟩,
   ⟨"GetArtist", [], [.string, .error]⟩,
   ⟨"GetAlbum", [], [.string, .error]⟩,
   ⟨"GetYear", [], [.int, .error]⟩,
   ⟨"GetComment", [], [.string, .error]⟩,
   ⟨"GetGenre", [], [.string, .error]⟩,
   ⟨"GetAlbumArtist", [], [.string, .error]⟩,
   ⟨"GetDate", [], [.timeTime, .error]⟩,
   ⟨"GetArranger", [], [.string, .error]⟩,
   ⟨"GetAuthor", [], [.string, .error]⟩,
   ⟨"GetBPM", [], [.int, .error]⟩,
   ⟨"GetCatalogNumber", [], [.string, .error]⟩,
   ⟨"GetCompilation", [], [.string, .error]⟩,
   ⟨"GetComposer", [], [.string, .error]⟩,
   ⟨"GetConductor", [], [.string, .error]⟩,
   ⟨"GetCopyright", [], [.string, .error]⟩,
   ⟨"GetDescription", [], [.string, .error]⟩,
   ⟨"GetDiscNumber", [], [.int, .int, .error]⟩,
   ⟨"GetEncodedBy", [], [.string, .error]⟩,
   ⟨"GetTrackNumber", [], [.int, .int, .error]⟩,
   ⟨"GetPicture", [], [.imageImage, .error]⟩]

/-- `type SetMetadata interface { ... }`. -/
def SetMetadata : List Method :=
  [⟨"SetTitle", [.string], [.error]⟩,
   ⟨"SetArtist", [.string], [.error]⟩,
   ⟨"SetAlbum", [.string], [.error]⟩,
   ⟨"SetYear", [.int], [.error]⟩,
   ⟨"SetComment", [.string], [.error]⟩,
   ⟨"SetGenre", [.string], [.error]⟩,
   ⟨"SetAlbumArtist", [.string], [.error]⟩,
   ⟨"SetDate", [.timeTime], [.error]⟩,
   ⟨"SetArranger", [.string], [.error]⟩,
   ⟨"SetAuthor", [.string], [.error]⟩,
   ⟨"SetBPM", [.int], [.error]⟩,
   ⟨"SetCatalogNumber", [.string], [.error]⟩,
   ⟨"SetCompilation", [.string], [.error]⟩,
   ⟨"SetComposer", [.string], [.error]⟩,
   ⟨"SetConductor", [.string], [.error]⟩,
   ⟨"SetCopyright", [.string], [.error]⟩,
   ⟨"SetDescription", [.string], [.error]⟩,
   ⟨"SetDiscNumber", [.int, .int], [.error]⟩,
   ⟨"SetEncodedBy", [.string], [.error]⟩,
   ⟨"SetTrackNumber", [.int, .int], [.error]⟩,
   ⟨"SetPicture", [.imageImage], [.error]⟩]

/-- `type DeleteMetadata interface { ... }`. -/
def DeleteMetadata : List Method :=
  [⟨"DeleteAll", [], [.error]⟩,
   ⟨"DeleteTitle", [], [.error]⟩,
   ⟨"DeleteArtist", [], [.error]⟩,
   ⟨"DeleteAlbum", [], [.error]⟩,
   ⟨"DeleteYear", [], [.error]⟩,
   ⟨"DeleteComment", [], [.error]⟩,
   ⟨"DeleteGenre", [], [.error]⟩,
   ⟨"DeleteAlbumArtist", [], [.error]⟩,
   ⟨"DeleteDate", [], [.error]⟩,
   ⟨"DeleteArranger", [], [.error]⟩,
   ⟨"DeleteAuthor", [], [.error]⟩,
   ⟨"DeleteBPM", [], [.error]⟩,
   ⟨"DeleteCatalogNumber", [], [.error]⟩,
   ⟨"DeleteCompilation", [], [.error]⟩,
   ⟨"DeleteComposer", [], [.error]⟩,
   ⟨"DeleteConductor", [], [.error]⟩,
   ⟨"DeleteCopyright", [], [.error]⟩,
   ⟨"DeleteDescription", [], [.error]⟩,
   ⟨"DeleteDiscNumber", [], [.error]⟩,
   ⟨"DeleteEncodedBy", [], [.error]⟩,
   ⟨"DeleteTrackNumber", [], [.error]⟩,
   ⟨"DeletePicture", [], [.error]⟩]

/-- `type SaveMetadata interface { ... }`. -/
def SaveMetadata : List Method :=
  [⟨"SaveFile", [.string], [.error]⟩,
   ⟨"Save", [.ioWriteSeeker], [.error]⟩]

/-- `type Metadata interface { GetMetadata; SetMetadata; DeleteMetadata;
SaveMetadata }`: the method set of an interface that embeds others is the
union of the embedded method sets, here in embedding order. -/
def Metadata : List Method :=
  GetMetadata ++ SetMetadata ++ DeleteMetadata ++ SaveMetadata

/-- Go's interface satisfaction: a type whose method set is `T` implements the
interface `I` when every method of `I` is a method of `T`. -/
def Implements (T I : List Method) : Prop :=
  ∀ m, m ∈ I → m ∈ T

/-- The canonical fields of the specification (section 3, CanonicalTag), in its
order, written as the identifiers the facade uses for them. -/
def canonicalFields : List GoString :=
  ["Title", "Artist", "Album", "Year", "Comment", "Genre", "AlbumArtist",
   "Date", "Arranger", "Author", "BPM", "CatalogNumber", "Compilation",
   "Composer", "Conductor", "Copyright", "Description", "DiscNumber",
   "EncodedBy", "TrackNumber", "Picture"]

/-- The field getters of `GetMetadata`: the methods that can report an error
(`GetAllTagNames`, `GetVersion` and `GetFileData` return no error). -/
def fieldGetters : List Method :=
  GetMetadata.filter (fun m => m.results.getLast? == some GoType.error)

/-- The per-field deleters of `DeleteMetadata`: every method but `DeleteAll`. -/
def fieldDeleters : List Method :=
  DeleteMetadata.filter (fun m => m.name != "DeleteAll")

/-! ## Part 2: codec behaviour modelled from the specification

`metadata.go` only declares the facade.  The definitions below follow the
words of the specification for the behaviour behind it. -/

/-- Modelled from the spec: the syncsafe writer of the byte cursor (section
4.1), which `metadata.go` does not contain.  A syncsafe 32-bit integer is four
bytes, most significant first, each with seven usable bits and a zero top bit;
encoding fails (`none`) when the value needs more than 28 usable bits. -/
def encodeSyncsafe (x : Nat) : Option (List Nat) :=
  if x < 2 ^ 28 then
    some [x / 2 ^ 21 % 128, x / 2 ^ 14 % 128, x / 2 ^ 7 % 128, x % 128]
  else none

/-- Modelled from the spec: the syncsafe reader of the byte cursor (sections
4.1 and 8), which `metadata.go` does not contain.  It reads four bytes from the
front of the buffer and returns the value with the rest of the buffer; it
fails with `ErrIncorrectLength` when fewer than four bytes remain or when one
of the four bytes has its high bit set. -/
def decodeSyncsafe : List Nat → Except GoError (Nat × List Nat)
  | b0 :: b1 :: b2 :: b3 :: rest =>
      if b0 < 128 ∧ b1 < 128 ∧ b2 < 128 ∧ b3 < 128 then
        .ok (b0 * 2 ^ 21 + b1 * 2 ^ 14 + b2 * 2 ^ 7 + b3, rest)
      else .error ErrIncorrectLength
  | _ => .error ErrIncorrectLength

/-- Modelled from the spec: the canonical fields of section 3 (CanonicalTag),
one constructor for each, in the order of the facade's getters. -/
inductive Field where
  | Title | Artist | Album | Year | Comment | Genre | AlbumArtist | Date
  | Arranger | Author | BPM | CatalogNumber | Compilation | Composer
  | Conductor | Copyright | Description | DiscNumber | EncodedBy
  | TrackNumber | Picture
  deriving DecidableEq, Repr

/-- Modelled from the spec: what a native entry holds (section 3): the text of
a text frame or Vorbis comment, or the bytes of a binary atom payload. -/
inductive Payload where
  | text (chars : List Char)
  | binary (bytes : List Nat)
  deriving DecidableEq, Repr

/-- Modelled from the spec: the in-memory TagModel of section 3 for the keyed
formats: the detected version and the ordered sequence of native entries (ID3v2
frames by frame id, MP4 `ilst` children by fourcc, FLAC Vorbis comments by
key), each with its payload. -/
structure TagModel where
  version : TagVersion
  entries : List (GoString × Payload)
  deriving DecidableEq, Repr

/-- Modelled from the spec: the canonical-field-to-native-key table of each
format (section 9).  The specification names only a few of its entries, so the
table is a parameter of the operations; `none` means that the format has no
mapping for the field. -/
abbrev KeyTable := TagVersion → Field → Option GoString

/-- Modelled from the spec: the entries of the key table that the specification
spells out (sections 4.4, 4.5 and 8): genre, track number, disc number and
picture for ID3v2 and MP4. -/
def specKeyTable : KeyTable := fun v f =>
  match f with
  | Field.Genre =>
      if v = TagVersionID3v22 then some "TCO"
      else if v = TagVersionID3v23 ∨ v = TagVersionID3v24 then some "TCON"
      else if v = TagVersionMP4 then some "©gen" else none
  | Field.TrackNumber =>
      if v = TagVersionID3v23 ∨ v = TagVersionID3v24 then some "TRCK"
      else if v = TagVersionMP4 then some "trkn" else none
  | Field.DiscNumber =>
      if v = TagVersionID3v23 ∨ v = TagVersionID3v24 then some "TPOS"
      else if v = TagVersionMP4 then some "disk" else none
  | Field.Picture =>
      if v = TagVersionID3v22 then some "PIC"
      else if v = TagVersionID3v23 ∨ v = TagVersionID3v24 then some "APIC" else none
  | _ => none

/-- Modelled from the spec: lower-casing of a key, for the case-insensitive
match of Vorbis comment keys (section 4.6). -/
def lowerKey (k : GoString) : List Char :=
  k.data.map Char.toLower

/-- Modelled from the spec: when a stored native key matches the key looked
for: case-insensitively for FLAC Vorbis comments (section 4.6), exactly for
the frame ids and fourccs of the other formats. -/
def keyMatches (v : TagVersion) (stored wanted : GoString) : Bool :=
  if v = TagVersionFLAC then lowerKey stored == lowerKey wanted
  else stored == wanted

/-- Modelled from the spec: the payload of the first entry that matches the
key, if there is one. -/
def lookupEntry (v : TagVersion) (k : GoString) :
    List (GoString × Payload) → Option Payload
  | [] => none
  | (k', p) :: rest =>
      if keyMatches v k' k then some p else lookupEntry v k rest

/-- Modelled from the spec: "Set on a missing frame inserts a new frame in
encoding order; Set on an existing frame replaces its payload" (section 4.4). -/
def putEntry (v : TagVersion) (k : GoString) (p : Payload) :
    List (GoString × Payload) → List (GoString × Payload)
  | [] => [(k, p)]
  | (k', q) :: rest =>
      if keyMatches v k' k then (k', p) :: rest
      else (k', q) :: putEntry v k p rest

/-- Modelled from the spec: `Get<Field>` of the facade (section 6), without the
decoding of the payload into the field's Go type: `ErrTagNotFound` if the active
format has no mapping for the field or the field is absent, the stored payload
otherwise. -/
def getField (table : KeyTable) (m : TagModel) (f : Field) : Except GoError Payload :=
  match table m.version f with
  | none => .error ErrTagNotFound
  | some k =>
      match lookupEntry m.version k m.entries with
      | none => .error ErrTagNotFound
      | some p => .ok p

/-- Modelled from the spec: the character of a decimal digit. -/
def digitChar (d : Nat) : Char :=
  Char.ofNat (48 + d)

/-- Modelled from the spec: the value of a decimal digit character. -/
def charDigit (c : Char) : Option Nat :=
  if 48 ≤ c.toNat ∧ c.toNat ≤ 57 then some (c.toNat - 48) else none

/-- Modelled from the spec: the decimal digits of a number, least significant
first; `fuel` bounds the number of digits. -/
def decimalDigits : Nat → Nat → List Nat
  | 0, _ => []
  | fuel + 1, n => if n < 10 then [n] else n % 10 :: decimalDigits fuel (n / 10)

/-- Modelled from the spec: a natural number in decimal, as in the frame text
"5/12" of section 8. -/
def formatNat (n : Nat) : List Char :=
  (decimalDigits (n + 1) n).reverse.map digitChar

/-- Modelled from the spec: an integer in decimal, with a minus sign when
negative. -/
def formatInt (i : Int) : List Char :=
  if i < 0 then '-' :: formatNat i.natAbs else formatNat i.natAbs

/-- Modelled from the spec: reading decimal digits onto an accumulator; `none`
at a character that is no digit. -/
def parseDigits : Nat → List Char → Option Nat
  | acc, [] => some acc
  | acc, c :: cs =>
      match charDigit c with
      | none => none
      | some d => parseDigits (10 * acc + d) cs

/-- Modelled from the spec: a natural number read from decimal text; the text
must have at least one digit. -/
def parseNat (cs : List Char) : Option Nat :=
  if cs = [] then none else parseDigits 0 cs

/-- Modelled from the spec: an integer read from decimal text with an optional
sign. -/
def parseInt : List Char → Option Int
  | '-' :: rest => (parseNat rest).map (fun n => -(n : Int))
  | '+' :: rest => (parseNat rest).map (fun n => (n : Int))
  | cs => (parseNat cs).map (fun n => (n : Int))

/-- Modelled from the spec: the text of a numeric frame "split on `/`" (section
4.4): the part before the first slash and the part after it; `none` when the
text has no slash. -/
def splitAtSlash : List Char → Option (List Char × List Char)
  | [] => none
  | c :: cs =>
      if c = '/' then some ([], cs)
      else (splitAtSlash cs).map (fun p => (c :: p.1, p.2))

/-- Modelled from the spec: the two native layouts of a track number that the
specification describes: the ID3v2 frame text "number/total" (section 4.4) and
the two 16-bit integers of the MP4 `trkn` payload (section 4.5). -/
inductive TrackLayout where
  | slashText
  | twoUInt16
  deriving DecidableEq, Repr

/-- Modelled from the spec: the track-number layout of each version.  The
specification describes one for ID3v2 and for MP4 only; the ID3v1 record of
section 3 has no track-number field and no layout is given for FLAC. -/
def trackLayout (v : TagVersion) : Option TrackLayout :=
  if v = TagVersionID3v22 ∨ v = TagVersionID3v23 ∨ v = TagVersionID3v24 then
    some TrackLayout.slashText
  else if v = TagVersionMP4 then some TrackLayout.twoUInt16
  else none

/-- Modelled from the spec: encoding of (number, total) in a layout.  The text
layout holds every integer; the binary layout holds two big-endian 16-bit
integers, so encoding fails (`none`) for a value outside 0..65535. -/
def encodeTrack (layout : TrackLayout) (number total : Int) : Option Payload :=
  match layout with
  | TrackLayout.slashText =>
      some (Payload.text (formatInt number ++ '/' :: formatInt total))
  | TrackLayout.twoUInt16 =>
      if 0 ≤ number ∧ number < 65536 ∧ 0 ≤ total ∧ total < 65536 then
        some (Payload.binary
          [number.toNat / 256, number.toNat % 256, total.toNat / 256, total.toNat % 256])
      else none

/-- Modelled from the spec: decoding of (number, total) from a payload of the
layout; a payload that is not of the layout's shape is an incorrect tag. -/
def decodeTrack (layout : TrackLayout) (p : Payload) : Except GoError (Int × Int) :=
  match layout, p with
  | TrackLayout.slashText, Payload.text cs =>
      match splitAtSlash cs with
      | none => .error ErrIncorrectTag
      | some (a, b) =>
          match parseInt a, parseInt b with
          | some n, some t => .ok (n, t)
          | _, _ => .error ErrIncorrectTag
  | TrackLayout.twoUInt16, Payload.binary [n1, n0, t1, t0] =>
      if n1 < 256 ∧ n0 < 256 ∧ t1 < 256 ∧ t0 < 256 then
        .ok (((n1 * 256 + n0 : Nat) : Int), ((t1 * 256 + t0 : Nat) : Int))
      else .error ErrIncorrectTag
  | _, _ => .error ErrIncorrectTag

/-- Modelled from the spec: `SetTrackNumber(number, total)` of the facade
(sections 4.4, 4.5 and 8): the pair is encoded in the layout of the active
format and stored under the native key of the track-number field.  It fails
when the format has no mapping or no layout for the field, and when the values
do not fit the layout. -/
def SetTrackNumber (table : KeyTable) (m : TagModel) (number total : Int) :
    Except GoError TagModel :=
  match table m.version Field.TrackNumber, trackLayout m.version with
  | some k, some layout =>
      match encodeTrack layout number total with
      | some p => .ok { m with entries := putEntry m.version k p m.entries }
      | none => .error ErrIncorrectLength
  | _, _ => .error ErrUnsupportedTag

/-- Modelled from the spec: `GetTrackNumber()` of the facade (sections 6 and
8): the payload of the track-number field, decoded in the layout of the active
format as (number, total). -/
def GetTrackNumber (table : KeyTable) (m : TagModel) : Except GoError (Int × Int) :=
  match getField table m Field.TrackNumber with
  | .error e => .error e
  | .ok p =>
      match trackLayout m.version with
      | none => .error ErrTagNotFound
      | some layout => decodeTrack layout p

/-! ## Part 3: theorems -/

/-- C1 (counterexample): `TagVersion` is an integer type, and the integer 7 is a
value of it that is none of the seven declared constants; so not every value
of the type is one of them. -/
theorem tagVersion_not_only_declared :
    (7 : TagVersion) ∉ declaredVersions ∧
    ¬ (∀ v : TagVersion, v ∈ declaredVersions) := by
  have h7 : (7 : TagVersion) ∉ declaredVersions := by decide
  exact ⟨h7, fun h => h7 (h 7)⟩

/-- C1 (amended): `GetVersion` is declared with result type `TagVersion`; the
seven declared constants are 0 through 6 in declaration order, pairwise
distinct, with Undefined the zero value, and a `TagVersion` value is one of
them exactly when it lies in the range 0..6. -/
theorem declaredVersions_spec :
    (⟨"GetVersion", [], [GoType.tagVersion]⟩ : Method) ∈ GetMetadata ∧
    declaredVersions = [0, 1, 2, 3, 4, 5, 6] ∧
    declaredVersions.Nodup ∧
    TagVersionUndefined = (0 : Int) ∧
    (∀ v : TagVersion, v ∈ declaredVersions ↔ (0 ≤ v ∧ v ≤ 6)) := by
  refine ⟨by decide, rfl, by decide, rfl, ?_⟩
  intro v
  simp only [declaredVersions, TagVersionUndefined, TagVersionID3v1, TagVersionID3v22,
    TagVersionID3v23, TagVersionID3v24, TagVersionMP4, TagVersionFLAC, List.mem_cons,
    List.mem_singleton, List.not_mem_nil, or_false]
  have key : ∀ w : Int, (w = 0 ∨ w = 1 ∨ w = 2 ∨ w = 3 ∨ w = 4 ∨ w = 5 ∨ w = 6) ↔
      (0 ≤ w ∧ w ≤ 6) := by
    intro w
    omega
  exact key v

/-- C2: the sentinel errors are declared one per error kind of the taxonomy
(eleven of them, named `Err` followed by the kind), and their messages, hence
the errors themselves, are pairwise distinct. -/
theorem sentinelErrors_one_per_kind :
    sentinelErrors.map (fun p => p.1) = errorKinds.map (fun k => "Err" ++ k) ∧
    errorKinds.Nodup ∧
    sentinelErrors.length = 11 ∧
    (sentinelErrors.map (fun p => p.2.msg)).Nodup ∧
    (sentinelErrors.map (fun p => p.2)).Nodup := by
  refine ⟨by decide, by decide, rfl, by decide, by decide⟩

/-- C3: the 21 field getters, the 21 setters and the 21 per-field deleters are
named `Get`, `Set` and `Delete` followed by the canonical fields, field by
field, with no field missing, repeated or added. -/
theorem facade_fields_agree :
    fieldGetters.map (fun m => m.name) = canonicalFields.map (fun f => "Get" ++ f) ∧
    SetMetadata.map (fun m => m.name) = canonicalFields.map (fun f => "Set" ++ f) ∧
    fieldDeleters.map (fun m => m.name) = canonicalFields.map (fun f => "Delete" ++ f) ∧
    canonicalFields.length = 21 ∧
    canonicalFields.Nodup := by
  refine ⟨by decide, by decide, by decide, rfl, by decide⟩

/-- C4: `Metadata` has exactly the operations of `GetMetadata`, `SetMetadata`,
`DeleteMetadata` and `SaveMetadata`; no operation name occurs twice, so the four
sets are pairwise disjoint and the sizes add up to 24 + 21 + 22 + 2 = 69; and
every type that implements `Metadata` (there is one) implements each of the
four narrower interfaces. -/
theorem metadata_is_merged_capability_set :
    (∀ m : Method, m ∈ Metadata ↔
      (m ∈ GetMetadata ∨ m ∈ SetMetadata ∨ m ∈ DeleteMetadata ∨ m ∈ SaveMetadata)) ∧
    (Metadata.map (fun m => m.name)).Nodup ∧
    GetMetadata.length = 24 ∧ SetMetadata.length = 21 ∧
    DeleteMetadata.length = 22 ∧ SaveMetadata.length = 2 ∧
    Metadata.length = 69 ∧
    (∀ T : List Method, Implements T Metadata →
      (Implements T GetMetadata ∧ Implements T SetMetadata ∧
       Implements T DeleteMetadata ∧ Implements T SaveMetadata)) ∧
    (∃ T : List Method, Implements T Metadata) := by
  have hmem : ∀ m : Method, m ∈ Metadata ↔
      (m ∈ GetMetadata ∨ m ∈ SetMetadata ∨ m ∈ DeleteMetadata ∨ m ∈ SaveMetadata) := by
    intro m
    simp only [Metadata, List.mem_append, or_assoc]
  refine ⟨hmem, by decide, rfl, rfl, rfl, rfl, rfl, ?_, ⟨Metadata, fun _ h => h⟩⟩
  intro T hT
  refine ⟨?_, ?_, ?_, ?_⟩ <;> intro m hm <;> apply hT m <;> rw [hmem]
  · exact Or.inl hm
  · exact Or.inr (Or.inl hm)
  · exact Or.inr (Or.inr (Or.inl hm))
  · exact Or.inr (Or.inr (Or.inr hm))

/-- C8: `String` gives each of the seven named versions its fixed name. -/
theorem tagVersion_String_table :
    TagVersion.String TagVersionUndefined = "" ∧
    TagVersion.String TagVersionID3v1 = "id3v1" ∧
    TagVersion.String TagVersionID3v22 = "id3v2.2" ∧
    TagVersion.String TagVersionID3v23 = "id3v2.3" ∧
    TagVersion.String TagVersionID3v24 = "id3v2.4" ∧
    TagVersion.String TagVersionMP4 = "mp4" ∧
    TagVersion.String TagVersionFLAC = "flac" := by
  refine ⟨rfl, rfl, rfl, rfl, rfl, rfl, rfl⟩

/-- C9: on the seven named versions `String` is injective: two of them with the
same printed name are the same version. -/
theorem tagVersion_String_injective_on_declared (a b : TagVersion)
    (ha : a ∈ declaredVersions) (hb : b ∈ declaredVersions)
    (h : TagVersion.String a = TagVersion.String b) : a = b := by
  simp only [declaredVersions, List.mem_cons, List.mem_singleton, List.not_mem_nil,
    or_false] at ha hb
  rcases ha with rfl | rfl | rfl | rfl | rfl | rfl | rfl <;>
    rcases hb with rfl | rfl | rfl | rfl | rfl | rfl | rfl <;>
    first
      | rfl
      | (exfalso; revert h; decide)

/-- C9 (witness): the theorem applied to `TagVersionFLAC` and the integer 6. -/
theorem tagVersion_String_injective_witness :
    TagVersionFLAC ∈ declaredVersions ∧ (6 : TagVersion) ∈ declaredVersions ∧
    TagVersion.String TagVersionFLAC = TagVersion.String 6 ∧
    TagVersionFLAC = (6 : TagVersion) :=
  ⟨by decide, by decide, rfl,
    tagVersion_String_injective_on_declared TagVersionFLAC 6 (by decide) (by decide) rfl⟩

/-- The name-table lookup, case by case over the integers. -/
theorem mapIndex_id3VersionMap (w : Int) :
    mapIndex id3VersionMap w =
      if w = 0 then "" else if w = 1 then "id3v1" else if w = 2 then "id3v2.2"
      else if w = 3 then "id3v2.3" else if w = 4 then "id3v2.4"
      else if w = 5 then "mp4" else if w = 6 then "flac" else "" := by
  simp only [id3VersionMap, mapIndex, TagVersionUndefined, TagVersionID3v1,
    TagVersionID3v22, TagVersionID3v23, TagVersionID3v24, TagVersionMP4, TagVersionFLAC,
    eq_comm]

/-- C10: `String` is a total function on all integer values of `TagVersion`, and
its result is the empty string exactly when the value is not one of the six
concrete formats, that is when it is `TagVersionUndefined` or outside 1..6. -/
theorem tagVersion_String_empty_iff (v : TagVersion) :
    (∃ s : GoString, TagVersion.String v = s) ∧
    (TagVersion.String v = "" ↔
      v ∉ [TagVersionID3v1, TagVersionID3v22, TagVersionID3v23, TagVersionID3v24,
           TagVersionMP4, TagVersionFLAC]) ∧
    (v ∉ [TagVersionID3v1, TagVersionID3v22, TagVersionID3v23, TagVersionID3v24,
           TagVersionMP4, TagVersionFLAC] ↔
      (v = TagVersionUndefined ∨ v < 1 ∨ 6 < v)) := by
  have key : ∀ w : Int,
      (mapIndex id3VersionMap w = "" ↔
        ¬ (w = 1 ∨ w = 2 ∨ w = 3 ∨ w = 4 ∨ w = 5 ∨ w = 6)) ∧
      (¬ (w = 1 ∨ w = 2 ∨ w = 3 ∨ w = 4 ∨ w = 5 ∨ w = 6) ↔ (w = 0 ∨ w < 1 ∨ 6 < w)) := by
    intro w
    refine ⟨?_, by omega⟩
    rw [mapIndex_id3VersionMap]
    split_ifs with h0 h1 h2 h3 h4 h5 h6
    · simp only [true_iff]; omega
    · simp only [h1, true_or, not_true_eq_false, iff_false]; decide
    · simp only [h2, true_or, or_true, not_true_eq_false, iff_false]; decide
    · simp only [h3, true_or, or_true, not_true_eq_false, iff_false]; decide
    · simp only [h4, true_or, or_true, not_true_eq_false, iff_false]; decide
    · simp only [h5, true_or, or_true, not_true_eq_false, iff_false]; decide
    · simp only [h6, or_true, not_true_eq_false, iff_false]; decide
    · simp only [true_iff]; omega
  refine ⟨⟨_, rfl⟩, ?_, ?_⟩
  · simpa only [List.mem_cons, List.mem_singleton, List.not_mem_nil, or_false,
      TagVersion.String, TagVersionID3v1, TagVersionID3v22, TagVersionID3v23,
      TagVersionID3v24, TagVersionMP4, TagVersionFLAC] using (key v).1
  · simpa only [List.mem_cons, List.mem_singleton, List.not_mem_nil, or_false,
      TagVersionUndefined, TagVersionID3v1, TagVersionID3v22, TagVersionID3v23,
      TagVersionID3v24, TagVersionMP4, TagVersionFLAC] using (key v).2

/-! ### The syncsafe integers of the byte cursor -/

/-- Decoding four bytes without high bits and encoding the value gives the
four bytes back. -/
theorem encodeSyncsafe_decodeSyncsafe (b0 b1 b2 b3 : Nat) (rest : List Nat)
    (h0 : b0 < 128) (h1 : b1 < 128) (h2 : b2 < 128) (h3 : b3 < 128) :
    ∃ x, decodeSyncsafe (b0 :: b1 :: b2 :: b3 :: rest) = .ok (x, rest) ∧
      encodeSyncsafe x = some [b0, b1, b2, b3] := by
  refine ⟨b0 * 2 ^ 21 + b1 * 2 ^ 14 + b2 * 2 ^ 7 + b3, ?_, ?_⟩
  · simp only [decodeSyncsafe, h0, h1, h2, h3, and_self, if_true]
  · have hlt : b0 * 2 ^ 21 + b1 * 2 ^ 14 + b2 * 2 ^ 7 + b3 < 2 ^ 28 := by omega
    simp only [encodeSyncsafe, hlt, if_true, Option.some.injEq, List.cons.injEq, and_true]
    refine ⟨?_, ?_, ?_, ?_⟩ <;> omega

/-- C7: for every x in [0, 2^28-1] the syncsafe encoder succeeds with four
bytes whose top bits are zero, and the decoder reads x back from them (leaving
whatever follows them in the buffer). -/
theorem syncsafe_roundtrip (x : Nat) (hx : x < 2 ^ 28) (rest : List Nat) :
    ∃ bs : List Nat, encodeSyncsafe x = some bs ∧ bs.length = 4 ∧
      (∀ b, b ∈ bs → b < 128) ∧
      decodeSyncsafe (bs ++ rest) = .ok (x, rest) := by
  refine ⟨[x / 2 ^ 21 % 128, x / 2 ^ 14 % 128, x / 2 ^ 7 % 128, x % 128], ?_, rfl, ?_, ?_⟩
  · simp only [encodeSyncsafe, hx, if_true]
  · intro b hb
    simp only [List.mem_cons, List.mem_singleton, List.not_mem_nil, or_false] at hb
    rcases hb with rfl | rfl | rfl | rfl <;> exact Nat.mod_lt _ (by norm_num)
  · have e : x / 2 ^ 21 % 128 * 2 ^ 21 + x / 2 ^ 14 % 128 * 2 ^ 14 +
        x / 2 ^ 7 % 128 * 2 ^ 7 + x % 128 = x := by omega
    have l0 : x / 2 ^ 21 % 128 < 128 := Nat.mod_lt _ (by norm_num)
    have l1 : x / 2 ^ 14 % 128 < 128 := Nat.mod_lt _ (by norm_num)
    have l2 : x / 2 ^ 7 % 128 < 128 := Nat.mod_lt _ (by norm_num)
    have l3 : x % 128 < 128 := Nat.mod_lt _ (by norm_num)
    simp only [List.cons_append, List.nil_append, decodeSyncsafe, l0, l1, l2, l3,
      and_self, if_true, e]

/-- C7 (witness): the round trip at x = 300, whose syncsafe bytes are 0, 0, 2, 44. -/
theorem syncsafe_roundtrip_witness :
    300 < 2 ^ 28 ∧ encodeSyncsafe 300 = some [0, 0, 2, 44] ∧
    ∃ bs : List Nat, encodeSyncsafe 300 = some bs ∧ bs.length = 4 ∧
      (∀ b, b ∈ bs → b < 128) ∧
      decodeSyncsafe (bs ++ [255]) = .ok (300, [255]) :=
  ⟨by decide, rfl, syncsafe_roundtrip 300 (by decide) [255]⟩

/-! ### The keyed entries of a tag -/

/-- `SetTrackNumber(n, t)` succeeds exactly when the format maps the track
number to a native key and either stores it as text (ID3v2.2, 2.3, 2.4, any n
and t) or as two 16-bit integers (MP4, n and t in 0..65535). -/
theorem SetTrackNumber_ok_iff (table : KeyTable) (m : TagModel) (n t : Int) :
    (∃ m' : TagModel, SetTrackNumber table m n t = .ok m') ↔
      ((∃ k, table m.version Field.TrackNumber = some k) ∧
        (trackLayout m.version = some TrackLayout.slashText ∨
          (trackLayout m.version = some TrackLayout.twoUInt16 ∧
            0 ≤ n ∧ n < 65536 ∧ 0 ≤ t ∧ t < 65536))) := by
  unfold SetTrackNumber
  cases hk : table m.version Field.TrackNumber with
  | none => simp
  | some k =>
      cases hl : trackLayout m.version with
      | none => simp
      | some layout =>
          cases layout with
          | slashText => simp [encodeTrack]
          | twoUInt16 =>
              by_cases hr : 0 ≤ n ∧ n < 65536 ∧ 0 ≤ t ∧ t < 65536
              · simp [encodeTrack, hr]
              · simp only [encodeTrack, hr, if_false, reduceCtorEq, exists_false,
                  Option.some.injEq, exists_eq', false_or, and_false]

/-- The specification's MP4 example: `SetTrackNumber(5, 12)` stores the integers
5 and 12 in the binary `trkn` payload, and `GetTrackNumber()` reads them back. -/
theorem trackNumber_mp4_example :
    SetTrackNumber specKeyTable ⟨TagVersionMP4, []⟩ 5 12 =
      .ok ⟨TagVersionMP4, [("trkn", Payload.binary [0, 5, 0, 12])]⟩ ∧
    GetTrackNumber specKeyTable
      ⟨TagVersionMP4, [("trkn", Payload.binary [0, 5, 0, 12])]⟩ = .ok (5, 12) :=
  ⟨rfl, rfl⟩

end Tag
